import Mathlib

/-!
# Frogbot command orchestration: `Exec` in `commands.go`

A shallow embedding of `Exec` (lines 68-116 of `commands.go`).

* Go `error` values are `Option GoError`, `none` being `nil`; `errors.Join` and the
  `Error()` text of its result follow the Go standard library.
* The process state `Exec` touches is a `World`: the environment variables and the
  directories that exist.
* Every call `Exec` makes is written to a trace, tagged with the source line it is made from.
* Everything decided outside `commands.go` for one invocation (what a collaborator returns,
  whether a system call fails, what `command.Run` does to the process state) is a field of
  `Inputs`; the theorems quantify over all of them.
* `defer` is explicit: the deferred closures are kept in order of deferral and run in
  reverse when the body returns or panics.
-/

namespace Frogbot

/-! ## Go errors -/

/-- A non-nil Go `error`: either an error with some message, or the result of `errors.Join`,
which wraps the list of non-nil errors it was given. -/
inductive GoError where
  | leaf (msg : String)
  | join (errs : List GoError)

mutual
/-- Decidable equality of errors. -/
def GoError.decEq : (a b : GoError) → Decidable (a = b)
  | .leaf m, .leaf n =>
    if h : m = n then isTrue (by rw [h]) else isFalse (by intro h2; cases h2; exact h rfl)
  | .leaf _, .join _ => isFalse (by intro h; cases h)
  | .join _, .leaf _ => isFalse (by intro h; cases h)
  | .join xs, .join ys =>
    match GoError.decEqList xs ys with
    | isTrue h => isTrue (by rw [h])
    | isFalse h => isFalse (by intro h2; cases h2; exact h rfl)
/-- Decidable equality of lists of errors. -/
def GoError.decEqList : (xs ys : List GoError) → Decidable (xs = ys)
  | [], [] => isTrue rfl
  | [], _ :: _ => isFalse (by intro h; cases h)
  | _ :: _, [] => isFalse (by intro h; cases h)
  | x :: xs, y :: ys =>
    match GoError.decEq x y, GoError.decEqList xs ys with
    | isTrue h1, isTrue h2 => isTrue (by rw [h1, h2])
    | isFalse h1, _ => isFalse (by intro h; cases h; exact h1 rfl)
    | _, isFalse h2 => isFalse (by intro h; cases h; exact h2 rfl)
end

instance : DecidableEq GoError := GoError.decEq

mutual
/-- The text of `err.Error()`. For a joined error with one member it is that member's text,
otherwise the members' texts separated by newlines (`joinError.Error` in package `errors`). -/
def GoError.Error : GoError → String
  | .leaf m => m
  | .join es => GoError.joinText es
/-- The texts of a list of errors, separated by newlines. -/
def GoError.joinText : List GoError → String
  | [] => ""
  | [e] => e.Error
  | e :: f :: es => e.Error ++ "\n" ++ GoError.joinText (f :: es)
end

mutual
/-- The errors contained in an error once every `errors.Join` wrapper is unwrapped,
in order. An error that is not a join contains itself. -/
def GoError.contained : GoError → List GoError
  | .leaf m => [.leaf m]
  | .join es => GoError.containedList es
/-- The errors contained in a list of errors. -/
def GoError.containedList : List GoError → List GoError
  | [] => []
  | e :: es => e.contained ++ GoError.containedList es
end

/-- The errors contained in a possibly nil `error`. -/
def contained : Option GoError → List GoError
  | none => []
  | some e => e.contained

/-- Go `errors.Join(errs...)`: nil values are discarded; the result is nil when nothing is
left, otherwise a join of the remaining errors in order. -/
def errorsJoin (errs : List (Option GoError)) : Option GoError :=
  match errs.filterMap id with
  | [] => none
  | e :: es => some (.join (e :: es))

/-! ## Process state -/

/-- The process state visible to `Exec`: environment variables (`none` = not set) and the
directories that exist. -/
structure World where
  env : String → Option String
  dirs : String → Bool

/-- Go `os.Getenv(key)`: the value of the variable, or the empty string when it is not set. -/
def osGetenv (w : World) (key : String) : String :=
  (w.env key).getD ""

/-- Go `os.Setenv(key, value)`. When the call reports no error the variable is set to
`value` (also when `value` is empty); when it reports an error nothing changes. -/
def osSetenv (key value : String) (outcome : Option GoError) (w : World) : World :=
  match outcome with
  | none => { w with env := fun k => if k = key then some value else w.env k }
  | some _ => w

/-- The call `fileutils.RemoveTempDir(path)`. When the call reports no error the directory
no longer exists; when it reports an error nothing changes. -/
def RemoveTempDir (path : String) (outcome : Option GoError) (w : World) : World :=
  match outcome with
  | none => { w with dirs := fun p => if p = path then false else w.dirs p }
  | some _ => w

/-- Modelled from the spec: `utils.BuildServerConfigFile` is not defined in `commands.go`.
It "write[s] a server-config file to a fresh temporary location and point[s] the
home-directory variable at it", and yields the pair "(original home-directory path, path to a
freshly created temporary directory)". When the step fails there is "nothing to roll back".
`outcome` is the error of the step or the path of the temporary directory. -/
def BuildServerConfigFile (homeVar : String) (outcome : Except GoError String) (w : World) :
    Except GoError (String × String) × World :=
  match outcome with
  | .error e => (.error e, w)
  | .ok temp =>
    (.ok (osGetenv w homeVar, temp),
     { env := fun k => if k = homeVar then some temp else w.env k
       dirs := fun p => if p = temp then true else w.dirs p })

/-! ## Calls made by `Exec` -/

/-- The three messages `Exec` writes with `log.Info`. -/
inductive LogLine where
  /-- Line 70: `log.Info("Frogbot version:", utils.FrogbotVersion)`. -/
  | frogbotVersion
  /-- Line 102: `"Running Frogbot %q command"`. -/
  | running (commandName : String)
  /-- Line 113: `"Frogbot %q command finished successfully"`. -/
  | finishedSuccessfully (commandName : String)
  deriving DecidableEq

/-- A call made by `Exec`, with its arguments. -/
inductive Call where
  | logInfo (line : LogLine)
  | logDebug (err : GoError)
  | GetFrogbotDetails (commandName : String)
  | CheckConnection
  | BuildServerConfigFile
  | Getenv (key : String)
  | Setenv (key value : String)
  | RemoveTempDir (path : String)
  | ReportUsageOnCommand (commandName : String)
  | Run
  | waitForUsageResponse
  | ShouldReportUsage
  | ReportError (err : Option GoError)
  deriving DecidableEq

/-- One entry of the trace: a call and the line of `commands.go` it is made from. -/
structure Event where
  line : Nat
  call : Call
  deriving DecidableEq

/-- The part of `utils.FrogbotDetails` that `Exec` inspects. The server details, the
repositories and the VCS client are only passed on to collaborators. -/
structure FrogbotDetails where
  ReleasesRepo : String
  deriving DecidableEq

/-- How a call of `command.Run` ends: it returns an `error`, or it panics. -/
inductive RunOutcome where
  | returned (err : Option GoError)
  | panicked (value : String)
  deriving DecidableEq

/-- Everything one invocation of `Exec` depends on that is decided outside `commands.go`. -/
structure Inputs where
  /-- The constant `utils.JfrogHomeDirEnv`, the name of the home-directory variable. -/
  JfrogHomeDirEnv : String
  /-- The constant `coreutils.ReleasesRemoteEnv`, the name of the releases-remote variable. -/
  ReleasesRemoteEnv : String
  commandName : String
  /-- What `utils.GetFrogbotDetails(commandName)` returns. -/
  detailsResult : Except GoError FrogbotDetails
  /-- The outcome of `utils.BuildServerConfigFile`: its error or the temporary directory. -/
  buildResult : Except GoError String
  /-- What `os.Setenv` returns on line 90 (setting the releases-remote override). -/
  setReleasesResult : Option GoError
  /-- How `command.Run` ends. -/
  runOutcome : RunOutcome
  /-- What `command.Run` does to the process state before it returns or panics. -/
  runEffect : World → World
  /-- What `os.Setenv` returns on line 94 (restoring the releases-remote variable). -/
  restoreReleasesResult : Option GoError
  /-- What `os.Setenv` returns on line 84 (restoring the home-directory variable). -/
  restoreHomeResult : Option GoError
  /-- What `fileutils.RemoveTempDir` returns on line 84. -/
  removeTempDirResult : Option GoError
  /-- What `usage.ShouldReportUsage()` returns. -/
  shouldReportUsage : Bool
  /-- What `xsc.ReportError` returns. -/
  reportErrorResult : Option GoError
  /-- The outcome of the asynchronous usage report started by `utils.ReportUsageOnCommand`.
  `Exec` receives only the wait handle, which returns nothing. -/
  usageReportResult : Option GoError

/-! ## `defer` and the activation of `Exec` -/

/-- The two deferred closures of `Exec`, with the variables they capture. -/
inductive Deferred where
  /-- Lines 83-85, capturing `originalJfrogHomeDir` and `tempJFrogHomeDir`. -/
  | restoreJfrogHome (originalJfrogHomeDir tempJFrogHomeDir : String)
  /-- Lines 93-95, capturing `previousReleasesRepoEnv`. -/
  | restoreReleasesRemote (previousReleasesRepoEnv : String)
  deriving DecidableEq

/-- The state of one activation of `Exec`. -/
structure Frame where
  /-- The named result `err`. -/
  err : Option GoError
  world : World
  /-- The calls made so far, oldest first. -/
  trace : List Event
  /-- The deferred closures, in the order in which they were deferred. -/
  deferred : List Deferred
  /-- The process state in which `command.Run` was invoked, if it was. -/
  runWorld : Option World

/-- Record a call made from the given source line. -/
def Frame.call (f : Frame) (line : Nat) (c : Call) : Frame :=
  { f with trace := f.trace ++ [⟨line, c⟩] }

/-- The statement `defer d()`: the closure is added to the deferred closures. -/
def Frame.defer (f : Frame) (d : Deferred) : Frame :=
  { f with deferred := f.deferred ++ [d] }

/-- How the body of `Exec` is left: by a `return`, or by a panic. -/
inductive Completion where
  | returns
  | panics (value : String)
  deriving DecidableEq

/-- Run one deferred closure. The arguments of `errors.Join` are evaluated left to right. -/
def Deferred.run (i : Inputs) : Deferred → Frame → Frame
  | .restoreJfrogHome originalJfrogHomeDir tempJFrogHomeDir, f =>
    -- err = errors.Join(err, os.Setenv(utils.JfrogHomeDirEnv, originalJfrogHomeDir),
    --                   fileutils.RemoveTempDir(tempJFrogHomeDir))
    let f := f.call 84 (.Setenv i.JfrogHomeDirEnv originalJfrogHomeDir)
    let f := { f with
      world := osSetenv i.JfrogHomeDirEnv originalJfrogHomeDir i.restoreHomeResult f.world }
    let f := f.call 84 (.RemoveTempDir tempJFrogHomeDir)
    let f := { f with world := RemoveTempDir tempJFrogHomeDir i.removeTempDirResult f.world }
    { f with err := errorsJoin [f.err, i.restoreHomeResult, i.removeTempDirResult] }
  | .restoreReleasesRemote previousReleasesRepoEnv, f =>
    -- err = errors.Join(err, os.Setenv(coreutils.ReleasesRemoteEnv, previousReleasesRepoEnv))
    let f := f.call 94 (.Setenv i.ReleasesRemoteEnv previousReleasesRepoEnv)
    let f := { f with
      world := osSetenv i.ReleasesRemoteEnv previousReleasesRepoEnv i.restoreReleasesResult
        f.world }
    { f with err := errorsJoin [f.err, i.restoreReleasesResult] }

/-- Run a list of closures one after the other, each on the state the previous one left. -/
def runAll (i : Inputs) : List Deferred → Frame → Frame
  | [], f => f
  | d :: ds, f => runAll i ds (d.run i f)

/-- Go runs deferred closures last-in-first-out: the reverse of the order of deferral. -/
def unwind (i : Inputs) (f : Frame) : Frame :=
  runAll i f.deferred.reverse f

/-- How an invocation of `Exec` ends, as seen by its caller. -/
inductive ExecOutcome where
  | returned (err : Option GoError)
  | panicked (value : String)
  deriving DecidableEq

/-- An invocation of `Exec`, observed from outside. -/
structure Result where
  outcome : ExecOutcome
  /-- The process state when `Exec` is left. -/
  world : World
  /-- Every call made, oldest first. -/
  trace : List Event
  /-- The closures that were deferred, in the order in which they were deferred. -/
  deferred : List Deferred
  /-- The process state in which `command.Run` was invoked, if it was. -/
  runWorld : Option World

/-- Leave `Exec`: run the deferred closures, then return the named result or go on
panicking. -/
def leave (i : Inputs) (f : Frame) (c : Completion) : Result :=
  let g := unwind i f
  { outcome := match c with
      | .returns => .returned g.err
      | .panics v => .panicked v
    world := g.world
    trace := g.trace
    deferred := f.deferred
    runWorld := g.runWorld }

/-- Lines 98-115: the usage report, the command, and the error report. -/
def runCommand (i : Inputs) (f : Frame) : Frame × Completion :=
  let f := f.call 99 (.ReportUsageOnCommand i.commandName)
  let f := f.call 102 (.logInfo (.running i.commandName))
  let f := f.call 103 .Run
  let f := { f with runWorld := some f.world, world := i.runEffect f.world }
  match i.runOutcome with
  | .panicked v => (f, .panics v)
  | .returned e =>
    let f := { f with err := e }
    let f := f.call 106 .waitForUsageResponse
    -- err != nil && usage.ShouldReportUsage()
    let (f, report) : Frame × Bool :=
      match f.err with
      | none => (f, false)
      | some _ => (f.call 108 .ShouldReportUsage, i.shouldReportUsage)
    if report then
      let f := f.call 109 (.ReportError f.err)
      match i.reportErrorResult with
      | some reportError => (f.call 110 (.logDebug reportError), .returns)
      | none => (f, .returns)
    else
      (f.call 113 (.logInfo (.finishedSuccessfully i.commandName)), .returns)

/-- Lines 87-115: the releases-remote override, then the command. -/
def withReleasesRemote (i : Inputs) (frogbotDetails : FrogbotDetails) (f : Frame) :
    Frame × Completion :=
  let f := f.call 88 (.Getenv i.ReleasesRemoteEnv)
  let previousReleasesRepoEnv := osGetenv f.world i.ReleasesRemoteEnv
  if frogbotDetails.ReleasesRepo ≠ "" then
    let value := "frogbot/" ++ frogbotDetails.ReleasesRepo
    let f := f.call 90 (.Setenv i.ReleasesRemoteEnv value)
    let f := { f with
      err := i.setReleasesResult
      world := osSetenv i.ReleasesRemoteEnv value i.setReleasesResult f.world }
    match i.setReleasesResult with
    | some _ => (f, .returns)
    | none => runCommand i (f.defer (.restoreReleasesRemote previousReleasesRepoEnv))
  else
    runCommand i f

/-- The function `Exec(command, commandName)`, started in process state `w`. -/
def Exec (i : Inputs) (w : World) : Result :=
  let f : Frame := { err := none, world := w, trace := [], deferred := [], runWorld := none }
  let f := f.call 70 (.logInfo .frogbotVersion)
  let f := f.call 71 (.GetFrogbotDetails i.commandName)
  match i.detailsResult with
  | .error e => leave i { f with err := some e } .returns
  | .ok frogbotDetails =>
    let f := f.call 76 .CheckConnection
    let f := f.call 79 .BuildServerConfigFile
    match BuildServerConfigFile i.JfrogHomeDirEnv i.buildResult f.world with
    | (.error e, w1) => leave i { f with err := some e, world := w1 } .returns
    | (.ok (originalJfrogHomeDir, tempJFrogHomeDir), w1) =>
      let f := { f with world := w1 }
      let f := f.defer (.restoreJfrogHome originalJfrogHomeDir tempJFrogHomeDir)
      let (f, c) := withReleasesRemote i frogbotDetails f
      leave i f c

/-- The error of restoring the releases-remote variable; nil when no restoration is
scheduled because the configuration names no releases repository. -/
def releasesRestoreError (i : Inputs) (d : FrogbotDetails) : Option GoError :=
  if d.ReleasesRepo ≠ "" then i.restoreReleasesResult else none

/-- Whether a call is made from inside a deferred closure (lines 84 and 94). -/
def Event.isCleanup (ev : Event) : Bool :=
  ev.line == 84 || ev.line == 94

/-- The calls of a trace made before the first call from the given line. -/
def callsBefore (line : Nat) (tr : List Event) : List Event :=
  tr.takeWhile (fun ev => ev.line ≠ line)

/-! ## Sample invocations -/

/-- A process state in which no variable is set and no directory exists. -/
def emptyWorld : World :=
  { env := fun _ => none, dirs := fun _ => false }

/-- An invocation in which the configuration names the releases repository `releases-X`,
every call succeeds and the command returns no error. -/
def sampleInputs : Inputs :=
  { JfrogHomeDirEnv := "JFROG_CLI_HOME_DIR"
    ReleasesRemoteEnv := "JFROG_CLI_RELEASES_REPO"
    commandName := "scan-repository"
    detailsResult := .ok { ReleasesRepo := "releases-X" }
    buildResult := .ok "/tmp/jfrog.cli.temp.1"
    setReleasesResult := none
    runOutcome := .returned none
    runEffect := fun w => w
    restoreReleasesResult := none
    restoreHomeResult := none
    removeTempDirResult := none
    shouldReportUsage := true
    reportErrorResult := none
    usageReportResult := none }

/-- The sample invocation with a command that fails with `scan timed out`. -/
def timedOutInputs : Inputs :=
  { sampleInputs with runOutcome := .returned (some (.leaf "scan timed out")) }

/-! ## Theorems -/

/-- The error `Exec` returns when setup succeeded and `command.Run` returned `e`: the joins
made by the two deferred closures, the inner one only when it was deferred. -/
theorem Exec_outcome_of_returned (i : Inputs) (w : World) (d : FrogbotDetails) (temp : String)
    (e : Option GoError)
    (hd : i.detailsResult = .ok d) (hb : i.buildResult = .ok temp)
    (hs : d.ReleasesRepo ≠ "" → i.setReleasesResult = none)
    (hr : i.runOutcome = .returned e) :
    (Exec i w).outcome = .returned
      (errorsJoin [if d.ReleasesRepo ≠ "" then errorsJoin [e, i.restoreReleasesResult] else e,
        i.restoreHomeResult, i.removeTempDirResult]) := by
  by_cases hrel : d.ReleasesRepo = ""
  · cases e <;> cases hsr : i.shouldReportUsage <;> cases hre : i.reportErrorResult <;>
      simp [Exec, hd, hb, hr, hrel, hsr, hre, BuildServerConfigFile, withReleasesRemote,
        runCommand, leave, unwind, runAll, Deferred.run, Frame.call, Frame.defer]
  · have hs2 := hs hrel
    cases e <;> cases hsr : i.shouldReportUsage <;> cases hre : i.reportErrorResult <;>
      simp [Exec, hd, hb, hr, hrel, hs2, hsr, hre, BuildServerConfigFile, withReleasesRemote,
        runCommand, leave, unwind, runAll, Deferred.run, Frame.call, Frame.defer]

/-- C1. When setup succeeded and `command.Run` was invoked and returned `e`, `Exec` returns
the join of the deferred closures: unwrapping the joins, the errors it contains are those of
`e`, of the restoration of the releases-remote variable (when scheduled), of the restoration
of the home-directory variable and of the removal of the temporary directory, in that order
and nothing else. It is nil exactly when all four are nil, and when only the command fails
its message is the command's message. -/
theorem C1_returned_error_contains_exactly_the_failures (i : Inputs) (w : World)
    (d : FrogbotDetails) (temp : String) (e : Option GoError)
    (hd : i.detailsResult = .ok d) (hb : i.buildResult = .ok temp)
    (hs : d.ReleasesRepo ≠ "" → i.setReleasesResult = none)
    (hr : i.runOutcome = .returned e) :
    ∃ r, (Exec i w).outcome = .returned r ∧
      contained r = contained e ++ contained (releasesRestoreError i d) ++
        contained i.restoreHomeResult ++ contained i.removeTempDirResult ∧
      (r = none ↔ e = none ∧ releasesRestoreError i d = none ∧
        i.restoreHomeResult = none ∧ i.removeTempDirResult = none) ∧
      (∀ x, e = some x → releasesRestoreError i d = none → i.restoreHomeResult = none →
        i.removeTempDirResult = none → ∃ y, r = some y ∧ y.Error = x.Error) := by
  refine ⟨_, Exec_outcome_of_returned i w d temp e hd hb hs hr, ?_⟩
  by_cases hrel : d.ReleasesRepo = ""
  · cases e <;> cases h2 : i.restoreHomeResult <;> cases h3 : i.removeTempDirResult <;>
      simp [hrel, h2, h3, releasesRestoreError, errorsJoin, contained, GoError.contained,
        GoError.containedList, GoError.Error, GoError.joinText]
  · cases e <;> cases h1 : i.restoreReleasesResult <;> cases h2 : i.restoreHomeResult <;>
      cases h3 : i.removeTempDirResult <;>
      simp [hrel, h1, h2, h3, releasesRestoreError, errorsJoin, contained, GoError.contained,
        GoError.containedList, GoError.Error, GoError.joinText]

/-- C1 at the command failure `scan timed out` with every cleanup step succeeding: the
returned error contains that failure alone and its message is `scan timed out`. -/
theorem C1_returned_error_witness :
    timedOutInputs.detailsResult = .ok { ReleasesRepo := "releases-X" } ∧
    timedOutInputs.buildResult = .ok "/tmp/jfrog.cli.temp.1" ∧
    timedOutInputs.runOutcome = .returned (some (.leaf "scan timed out")) ∧
    ∃ r y, (Exec timedOutInputs emptyWorld).outcome = .returned r ∧
      contained r = [.leaf "scan timed out"] ∧ r = some y ∧ y.Error = "scan timed out" := by
  refine ⟨rfl, rfl, rfl, ?_⟩
  obtain ⟨r, h1, h2, _, h4⟩ := C1_returned_error_contains_exactly_the_failures timedOutInputs
    emptyWorld { ReleasesRepo := "releases-X" } "/tmp/jfrog.cli.temp.1"
    (some (.leaf "scan timed out")) rfl rfl (fun _ => rfl) rfl
  obtain ⟨y, h5, h6⟩ := h4 _ rfl rfl rfl rfl
  exact ⟨r, y, h1, h2, h5, h6⟩

/-- C2 as stated fails: with the releases-remote variable unset before `Exec`, the releases
repository `releases-X` configured and every call succeeding, the variable is set to the empty
string after `Exec` returns; it is not unset again. -/
theorem C2_unset_releases_remote_counterexample :
    emptyWorld.env sampleInputs.ReleasesRemoteEnv = none ∧
    sampleInputs.detailsResult = .ok { ReleasesRepo := "releases-X" } ∧
    (Exec sampleInputs emptyWorld).outcome = .returned none ∧
    (Exec sampleInputs emptyWorld).world.env sampleInputs.ReleasesRemoteEnv = some "" ∧
    (Exec sampleInputs emptyWorld).world.env sampleInputs.ReleasesRemoteEnv ≠
      emptyWorld.env sampleInputs.ReleasesRemoteEnv :=
  ⟨rfl, rfl, by decide, by decide, by decide⟩

/-- C2, amended. When the configuration names a releases repository and the two `os.Setenv`
calls on the releases-remote variable (lines 90 and 94) report no error, then after `Exec` the
variable is set to the string `os.Getenv` read on line 88: a variable that was set, to the
empty string or to any value, has that value again, and a variable that was unset is set to
the empty string. -/
theorem C2_releases_remote_restored_to_string_read (i : Inputs) (w : World)
    (d : FrogbotDetails) (temp : String)
    (hd : i.detailsResult = .ok d) (hb : i.buildResult = .ok temp)
    (hrepo : d.ReleasesRepo ≠ "")
    (hset : i.setReleasesResult = none) (hrestore : i.restoreReleasesResult = none)
    (hne : i.JfrogHomeDirEnv ≠ i.ReleasesRemoteEnv) :
    (Exec i w).world.env i.ReleasesRemoteEnv = some (osGetenv w i.ReleasesRemoteEnv) ∧
    (∀ v, w.env i.ReleasesRemoteEnv = some v →
      (Exec i w).world.env i.ReleasesRemoteEnv = some v) ∧
    (w.env i.ReleasesRemoteEnv = none → (Exec i w).world.env i.ReleasesRemoteEnv = some "") := by
  have key : (Exec i w).world.env i.ReleasesRemoteEnv
      = some (osGetenv w i.ReleasesRemoteEnv) := by
    have hne2 : ¬ i.ReleasesRemoteEnv = i.JfrogHomeDirEnv := fun h => hne h.symm
    cases hro : i.runOutcome with
    | panicked v =>
      cases h2 : i.restoreHomeResult <;> cases h3 : i.removeTempDirResult <;>
        simp [Exec, hd, hb, hro, hrepo, hset, hrestore, h2, h3, hne2, BuildServerConfigFile,
          withReleasesRemote, runCommand, leave, unwind, runAll, Deferred.run, Frame.call,
          Frame.defer, osSetenv, osGetenv, RemoveTempDir]
    | returned e =>
      cases e <;> cases hsr : i.shouldReportUsage <;> cases hre : i.reportErrorResult <;>
        cases h2 : i.restoreHomeResult <;> cases h3 : i.removeTempDirResult <;>
        simp [Exec, hd, hb, hro, hrepo, hset, hrestore, hsr, hre, h2, h3, hne2,
          BuildServerConfigFile, withReleasesRemote, runCommand, leave, unwind, runAll,
          Deferred.run, Frame.call, Frame.defer, osSetenv, osGetenv, RemoveTempDir]
  refine ⟨key, fun v hv => ?_, fun hn => ?_⟩
  · rw [key, osGetenv, hv]; rfl
  · rw [key, osGetenv, hn]; rfl

/-- C2 amended, at the sample invocation started with the variable unset. -/
theorem C2_releases_remote_restored_witness :
    sampleInputs.detailsResult = .ok { ReleasesRepo := "releases-X" } ∧
    sampleInputs.buildResult = .ok "/tmp/jfrog.cli.temp.1" ∧
    ({ ReleasesRepo := "releases-X" } : FrogbotDetails).ReleasesRepo ≠ "" ∧
    sampleInputs.setReleasesResult = none ∧ sampleInputs.restoreReleasesResult = none ∧
    sampleInputs.JfrogHomeDirEnv ≠ sampleInputs.ReleasesRemoteEnv ∧
    (Exec sampleInputs emptyWorld).world.env sampleInputs.ReleasesRemoteEnv =
      some (osGetenv emptyWorld sampleInputs.ReleasesRemoteEnv) :=
  ⟨rfl, rfl, by decide, rfl, rfl, by decide,
    (C2_releases_remote_restored_to_string_read sampleInputs emptyWorld
      { ReleasesRepo := "releases-X" } "/tmp/jfrog.cli.temp.1" rfl rfl (by decide) rfl rfl
      (by decide)).1⟩

/-- C3. When `utils.GetFrogbotDetails` fails, `Exec` returns that error having made no call
but the version log line and `GetFrogbotDetails`, deferred nothing, not invoked the command and
left the process state as it was. When `utils.BuildServerConfigFile` fails, `Exec` returns
that error having made only the calls of lines 70 to 79: no environment write, no cleanup, no
usage report, no command, and nothing deferred. -/
theorem C3_setup_failure_short_circuits (i : Inputs) (w : World) :
    (∀ e, i.detailsResult = .error e →
      (Exec i w).outcome = .returned (some e) ∧
      (Exec i w).trace =
        [⟨70, .logInfo .frogbotVersion⟩, ⟨71, .GetFrogbotDetails i.commandName⟩] ∧
      (Exec i w).deferred = [] ∧
      (Exec i w).runWorld.isNone = true ∧
      (Exec i w).world.env = w.env ∧ (Exec i w).world.dirs = w.dirs) ∧
    (∀ d e, i.detailsResult = .ok d → i.buildResult = .error e →
      (Exec i w).outcome = .returned (some e) ∧
      (Exec i w).trace =
        [⟨70, .logInfo .frogbotVersion⟩, ⟨71, .GetFrogbotDetails i.commandName⟩,
         ⟨76, .CheckConnection⟩, ⟨79, .BuildServerConfigFile⟩] ∧
      (Exec i w).deferred = [] ∧
      (Exec i w).runWorld.isNone = true) := by
  constructor
  · intro e he
    simp [Exec, he, leave, unwind, runAll, Frame.call]
  · intro d e hd he
    simp [Exec, hd, he, BuildServerConfigFile, leave, unwind, runAll, Frame.call]

/-- C3 at two failing setups: credentials missing, and the server configuration file not
written. -/
theorem C3_setup_failure_witness :
    (Exec { sampleInputs with detailsResult := .error (.leaf "missing credentials") }
        emptyWorld).outcome = .returned (some (.leaf "missing credentials")) ∧
    (Exec { sampleInputs with buildResult := .error (.leaf "no space left on device") }
        emptyWorld).outcome = .returned (some (.leaf "no space left on device")) :=
  ⟨((C3_setup_failure_short_circuits
      { sampleInputs with detailsResult := .error (.leaf "missing credentials") }
      emptyWorld).1 _ rfl).1,
   ((C3_setup_failure_short_circuits
      { sampleInputs with buildResult := .error (.leaf "no space left on device") }
      emptyWorld).2 _ _ rfl rfl).1⟩

/-- C4 as stated fails. (1) With the home-directory variable not set before and every call
succeeding, it is set to the empty string after `Exec` returns, not unset. (2) When
`fileutils.RemoveTempDir` fails, the temporary directory still exists after `Exec` returns.
(3) When the restoring `os.Setenv` fails, the variable still names the temporary directory. -/
theorem C4_home_and_temp_dir_counterexample :
    (emptyWorld.env sampleInputs.JfrogHomeDirEnv = none ∧
      (Exec sampleInputs emptyWorld).outcome = .returned none ∧
      (Exec sampleInputs emptyWorld).world.env sampleInputs.JfrogHomeDirEnv = some "") ∧
    ((Exec { sampleInputs with removeTempDirResult := some (.leaf "permission denied") }
        emptyWorld).world.dirs "/tmp/jfrog.cli.temp.1" = true) ∧
    ((Exec { sampleInputs with restoreHomeResult := some (.leaf "setenv: invalid argument") }
        emptyWorld).world.env sampleInputs.JfrogHomeDirEnv = some "/tmp/jfrog.cli.temp.1") :=
  ⟨⟨rfl, by decide, by decide⟩, by decide, by decide⟩

/-- C4, amended. In every invocation that gets past setup, however `command.Run` ends: if the
restoring `os.Setenv` of line 84 reports no error, the home-directory variable is afterwards
set to the string read before the server-config file was built (the prior value when it was
set, the empty string when it was not set); and if `fileutils.RemoveTempDir` reports no error,
the temporary directory does not exist afterwards. -/
theorem C4_home_restored_and_temp_dir_removed (i : Inputs) (w : World)
    (d : FrogbotDetails) (temp : String)
    (hd : i.detailsResult = .ok d) (hb : i.buildResult = .ok temp) :
    (i.restoreHomeResult = none →
      (Exec i w).world.env i.JfrogHomeDirEnv = some (osGetenv w i.JfrogHomeDirEnv)) ∧
    (i.removeTempDirResult = none → (Exec i w).world.dirs temp = false) := by
  by_cases hrel : d.ReleasesRepo = ""
  · cases hro : i.runOutcome with
    | panicked v =>
      cases h2 : i.restoreHomeResult <;> cases h3 : i.removeTempDirResult <;>
        simp [Exec, hd, hb, hro, hrel, h2, h3, BuildServerConfigFile,
          withReleasesRemote, runCommand, leave, unwind, runAll, Deferred.run, Frame.call,
          Frame.defer, osSetenv, osGetenv, RemoveTempDir]
    | returned e =>
      cases e <;> cases hsr : i.shouldReportUsage <;> cases hre : i.reportErrorResult <;>
        cases h2 : i.restoreHomeResult <;> cases h3 : i.removeTempDirResult <;>
        simp [Exec, hd, hb, hro, hrel, hsr, hre, h2, h3,
          BuildServerConfigFile, withReleasesRemote, runCommand, leave, unwind, runAll,
          Deferred.run, Frame.call, Frame.defer, osSetenv, osGetenv, RemoveTempDir]
  · cases hset : i.setReleasesResult with
    | some x =>
      cases h2 : i.restoreHomeResult <;> cases h3 : i.removeTempDirResult <;>
        simp [Exec, hd, hb, hrel, hset, h2, h3, BuildServerConfigFile,
          withReleasesRemote, leave, unwind, runAll, Deferred.run, Frame.call,
          Frame.defer, osSetenv, osGetenv, RemoveTempDir]
    | none =>
      cases hro : i.runOutcome with
      | panicked v =>
        cases h1 : i.restoreReleasesResult <;>
          cases h2 : i.restoreHomeResult <;> cases h3 : i.removeTempDirResult <;>
          simp [Exec, hd, hb, hro, hrel, hset, h1, h2, h3, BuildServerConfigFile,
            withReleasesRemote, runCommand, leave, unwind, runAll, Deferred.run, Frame.call,
            Frame.defer, osSetenv, osGetenv, RemoveTempDir]
      | returned e =>
        cases e <;> cases hsr : i.shouldReportUsage <;> cases hre : i.reportErrorResult <;>
          cases h1 : i.restoreReleasesResult <;>
          cases h2 : i.restoreHomeResult <;> cases h3 : i.removeTempDirResult <;>
          simp [Exec, hd, hb, hro, hrel, hset, hsr, hre, h1, h2, h3,
            BuildServerConfigFile, withReleasesRemote, runCommand, leave, unwind, runAll,
            Deferred.run, Frame.call, Frame.defer, osSetenv, osGetenv, RemoveTempDir]

/-- C4 amended, at the sample invocation with a command that fails. -/
theorem C4_home_restored_witness :
    timedOutInputs.detailsResult = .ok { ReleasesRepo := "releases-X" } ∧
    timedOutInputs.buildResult = .ok "/tmp/jfrog.cli.temp.1" ∧
    timedOutInputs.restoreHomeResult = none ∧ timedOutInputs.removeTempDirResult = none ∧
    (Exec timedOutInputs emptyWorld).world.env timedOutInputs.JfrogHomeDirEnv =
      some (osGetenv emptyWorld timedOutInputs.JfrogHomeDirEnv) ∧
    (Exec timedOutInputs emptyWorld).world.dirs "/tmp/jfrog.cli.temp.1" = false :=
  ⟨rfl, rfl, rfl, rfl,
    (C4_home_restored_and_temp_dir_removed timedOutInputs emptyWorld
      { ReleasesRepo := "releases-X" } "/tmp/jfrog.cli.temp.1" rfl rfl).1 rfl,
    (C4_home_restored_and_temp_dir_removed timedOutInputs emptyWorld
      { ReleasesRepo := "releases-X" } "/tmp/jfrog.cli.temp.1" rfl rfl).2 rfl⟩

/-- C5. On every path after `utils.BuildServerConfigFile` succeeded (the command returns nil,
returns an error or panics, or setting the releases-remote variable fails) and whatever each
cleanup call returns: the closures deferred are, in order of deferral, the restoration of the
home directory and then, only when the override was set without error, the restoration of the
releases-remote variable; the calls made from the deferred closures are exactly, once each and
in the reverse order, `os.Setenv` of the releases-remote variable to its previous value (when
deferred), `os.Setenv` of the home-directory variable to its original value, and
`fileutils.RemoveTempDir` of the temporary directory; and they come after every other call. -/
theorem C5_cleanup_runs_once_in_reverse_order (i : Inputs) (w : World) (d : FrogbotDetails) (temp : String)
    (hd : i.detailsResult = .ok d) (hb : i.buildResult = .ok temp)
    (hne : i.JfrogHomeDirEnv ≠ i.ReleasesRemoteEnv) :
    (Exec i w).deferred =
      [.restoreJfrogHome (osGetenv w i.JfrogHomeDirEnv) temp] ++
        (if d.ReleasesRepo ≠ "" ∧ i.setReleasesResult = none
          then [.restoreReleasesRemote (osGetenv w i.ReleasesRemoteEnv)] else []) ∧
    (Exec i w).trace.filter Event.isCleanup =
      (if d.ReleasesRepo ≠ "" ∧ i.setReleasesResult = none
        then [⟨94, .Setenv i.ReleasesRemoteEnv (osGetenv w i.ReleasesRemoteEnv)⟩] else []) ++
      [⟨84, .Setenv i.JfrogHomeDirEnv (osGetenv w i.JfrogHomeDirEnv)⟩,
       ⟨84, .RemoveTempDir temp⟩] ∧
    (Exec i w).trace =
      (Exec i w).trace.filter (fun ev => !ev.isCleanup) ++
        (Exec i w).trace.filter Event.isCleanup := by
  have hne2 : ¬ i.ReleasesRemoteEnv = i.JfrogHomeDirEnv := fun h => hne h.symm
  by_cases hrel : d.ReleasesRepo = ""
  · cases hro : i.runOutcome with
    | panicked v =>
        simp [Exec, hd, hb, hro, hrel, hne2, BuildServerConfigFile,
          withReleasesRemote, runCommand, leave, unwind, runAll, Deferred.run, Frame.call,
          Frame.defer, osSetenv, osGetenv, RemoveTempDir, Event.isCleanup]
    | returned e =>
      cases e <;> cases hsr : i.shouldReportUsage <;> cases hre : i.reportErrorResult <;>
        simp [Exec, hd, hb, hro, hrel, hsr, hre, hne2,
          BuildServerConfigFile, withReleasesRemote, runCommand, leave, unwind, runAll,
          Deferred.run, Frame.call, Frame.defer, osSetenv, osGetenv, RemoveTempDir, Event.isCleanup]
  · cases hset : i.setReleasesResult with
    | some x =>
        simp [Exec, hd, hb, hrel, hset, hne2, BuildServerConfigFile,
          withReleasesRemote, leave, unwind, runAll, Deferred.run, Frame.call,
          Frame.defer, osSetenv, osGetenv, RemoveTempDir, Event.isCleanup]
    | none =>
      cases hro : i.runOutcome with
      | panicked v =>
          simp [Exec, hd, hb, hro, hrel, hset, hne2, BuildServerConfigFile,
            withReleasesRemote, runCommand, leave, unwind, runAll, Deferred.run, Frame.call,
            Frame.defer, osSetenv, osGetenv, RemoveTempDir, Event.isCleanup]
      | returned e =>
        cases e <;> cases hsr : i.shouldReportUsage <;> cases hre : i.reportErrorResult <;>
          simp [Exec, hd, hb, hro, hrel, hset, hsr, hre, hne2,
            BuildServerConfigFile, withReleasesRemote, runCommand, leave, unwind, runAll,
            Deferred.run, Frame.call, Frame.defer, osSetenv, osGetenv, RemoveTempDir, Event.isCleanup]

/-- C5 at the sample invocation with a failing command and a failing restoration: the three
cleanup calls are still made, in this order. -/
theorem C5_cleanup_witness :
    timedOutInputs.detailsResult = .ok { ReleasesRepo := "releases-X" } ∧
    timedOutInputs.buildResult = .ok "/tmp/jfrog.cli.temp.1" ∧
    timedOutInputs.JfrogHomeDirEnv ≠ timedOutInputs.ReleasesRemoteEnv ∧
    (Exec { timedOutInputs with restoreReleasesResult := some (.leaf "setenv failed") }
        emptyWorld).trace.filter Event.isCleanup =
      [⟨94, .Setenv "JFROG_CLI_RELEASES_REPO" ""⟩, ⟨84, .Setenv "JFROG_CLI_HOME_DIR" ""⟩,
       ⟨84, .RemoveTempDir "/tmp/jfrog.cli.temp.1"⟩] :=
  ⟨rfl, rfl, by decide,
    (C5_cleanup_runs_once_in_reverse_order
      { timedOutInputs with restoreReleasesResult := some (.leaf "setenv failed") } emptyWorld
      { ReleasesRepo := "releases-X" } "/tmp/jfrog.cli.temp.1" rfl rfl (by decide)).2.1⟩

/-- C6. Two invocations that differ only in whether usage reporting is enabled, in the outcome
of the usage report and in the outcome of `xsc.ReportError` end the same way and return the
same error. -/
theorem C6_telemetry_never_changes_returned_error (i : Inputs) (w : World)
    (b1 b2 : Bool) (r1 r2 u1 u2 : Option GoError) :
    (Exec { i with shouldReportUsage := b1, reportErrorResult := r1, usageReportResult := u1 }
      w).outcome =
    (Exec { i with shouldReportUsage := b2, reportErrorResult := r2, usageReportResult := u2 }
      w).outcome := by
  cases hd : i.detailsResult with
  | error e => simp [Exec, hd, leave, unwind, runAll, Frame.call]
  | ok d =>
    cases hb : i.buildResult with
    | error e => simp [Exec, hd, hb, BuildServerConfigFile, leave, unwind, runAll, Frame.call]
    | ok temp =>
      by_cases hrel : d.ReleasesRepo = ""
      · cases hro : i.runOutcome with
        | panicked v =>
          simp [Exec, hd, hb, hro, hrel, BuildServerConfigFile,
            withReleasesRemote, runCommand, leave, unwind, runAll, Deferred.run, Frame.call,
            Frame.defer]
        | returned e =>
          cases e <;> cases b1 <;> cases b2 <;> cases r1 <;> cases r2 <;>
            simp [Exec, hd, hb, hro, hrel, BuildServerConfigFile, withReleasesRemote,
              runCommand, leave, unwind, runAll, Deferred.run, Frame.call, Frame.defer]
      · cases hset : i.setReleasesResult with
        | some x =>
          simp [Exec, hd, hb, hrel, hset, BuildServerConfigFile,
            withReleasesRemote, leave, unwind, runAll, Deferred.run, Frame.call, Frame.defer]
        | none =>
          cases hro : i.runOutcome with
          | panicked v =>
            simp [Exec, hd, hb, hro, hrel, hset, BuildServerConfigFile,
              withReleasesRemote, runCommand, leave, unwind, runAll, Deferred.run, Frame.call,
              Frame.defer]
          | returned e =>
            cases e <;> cases b1 <;> cases b2 <;> cases r1 <;> cases r2 <;>
              simp [Exec, hd, hb, hro, hrel, hset, BuildServerConfigFile, withReleasesRemote,
                runCommand, leave, unwind, runAll, Deferred.run, Frame.call, Frame.defer]

/-- C8 as stated fails: in the sample invocation with a command that panics, usage reporting
was started (line 99 was reached), yet the wait handle is never invoked. The call on line 106
is not deferred, so the panic on line 103 skips it, and `Exec` is left by the panic. -/
theorem C8_wait_skipped_on_panic_counterexample :
    (⟨99, .ReportUsageOnCommand "scan-repository"⟩ : Event) ∈
      (Exec { sampleInputs with runOutcome := .panicked "index out of range" }
        emptyWorld).trace ∧
    (Exec { sampleInputs with runOutcome := .panicked "index out of range" }
      emptyWorld).trace.count ⟨106, .waitForUsageResponse⟩ = 0 ∧
    (Exec { sampleInputs with runOutcome := .panicked "index out of range" }
      emptyWorld).outcome = .panicked "index out of range" := by
  decide

/-- C8, amended. In every invocation in which usage reporting was started (line 99 was
reached) and `command.Run` returns, with `e` the error it returned: the wait handle is invoked
exactly once; the call made just before it is `command.Run`; neither
`usage.ShouldReportUsage` (line 108) nor `xsc.ReportError` (line 109) is called before it; and
`xsc.ReportError` is called if and only if `e` is non-nil and `usage.ShouldReportUsage()` is
true, and then with `e`. -/
theorem C8_usage_wait_then_error_report (i : Inputs) (w : World) (e : Option GoError)
    (hstart : ⟨99, .ReportUsageOnCommand i.commandName⟩ ∈ (Exec i w).trace)
    (hr : i.runOutcome = .returned e) :
    (Exec i w).trace.count ⟨106, .waitForUsageResponse⟩ = 1 ∧
    (callsBefore 106 (Exec i w).trace).getLast? = some ⟨103, .Run⟩ ∧
    (∀ ev ∈ callsBefore 106 (Exec i w).trace, ev.line ≠ 108 ∧ ev.line ≠ 109) ∧
    ((∃ x, ⟨109, .ReportError x⟩ ∈ (Exec i w).trace) ↔
      (e ≠ none ∧ i.shouldReportUsage = true)) ∧
    (∀ x, ⟨109, .ReportError x⟩ ∈ (Exec i w).trace → x = e) := by
  cases hd : i.detailsResult with
  | error x => simp [Exec, hd, leave, unwind, runAll, Frame.call] at hstart
  | ok d =>
    cases hb : i.buildResult with
    | error x =>
      simp [Exec, hd, hb, BuildServerConfigFile, leave, unwind, runAll, Frame.call] at hstart
    | ok temp =>
      by_cases hrel : d.ReleasesRepo = ""
      · cases e <;> cases hsr : i.shouldReportUsage <;> cases hre : i.reportErrorResult <;>
          simp [Exec, hd, hb, hr, hrel, hsr, hre, BuildServerConfigFile, withReleasesRemote,
            runCommand, leave, unwind, runAll, Deferred.run, Frame.call, Frame.defer,
            callsBefore, List.count_cons]
      · cases hset : i.setReleasesResult with
        | some x =>
          simp [Exec, hd, hb, hrel, hset, BuildServerConfigFile,
            withReleasesRemote, leave, unwind, runAll, Deferred.run, Frame.call, Frame.defer]
            at hstart
        | none =>
          cases e <;> cases hsr : i.shouldReportUsage <;> cases hre : i.reportErrorResult <;>
            simp [Exec, hd, hb, hr, hrel, hset, hsr, hre, BuildServerConfigFile,
              withReleasesRemote, runCommand, leave, unwind, runAll, Deferred.run, Frame.call,
              Frame.defer, callsBefore, List.count_cons]

/-- C8 amended, at the sample invocation with a command that fails at once. -/
theorem C8_usage_wait_witness :
    (⟨99, .ReportUsageOnCommand timedOutInputs.commandName⟩ : Event) ∈
      (Exec timedOutInputs emptyWorld).trace ∧
    timedOutInputs.runOutcome = .returned (some (.leaf "scan timed out")) ∧
    (Exec timedOutInputs emptyWorld).trace.count ⟨106, .waitForUsageResponse⟩ = 1 ∧
    (callsBefore 106 (Exec timedOutInputs emptyWorld).trace).getLast? = some ⟨103, .Run⟩ :=
  ⟨by decide, rfl,
    (C8_usage_wait_then_error_report timedOutInputs emptyWorld
      (some (.leaf "scan timed out")) (by decide) rfl).1,
    (C8_usage_wait_then_error_report timedOutInputs emptyWorld
      (some (.leaf "scan timed out")) (by decide) rfl).2.1⟩

/-- C9. When the configuration names the releases repository `r`, the process state in which
`command.Run` is invoked has the releases-remote variable set to `frogbot/r`, and
`command.Run` is invoked whenever the server-config file was built and the variable was set
without error. When the configuration names none, `Exec` makes no call from lines 90 and 94,
never calls `os.Setenv` on the releases-remote variable, and defers no restoration of it. -/
theorem C9_releases_remote_override (i : Inputs) (w : World) (d : FrogbotDetails)
    (hd : i.detailsResult = .ok d) :
    (d.ReleasesRepo ≠ "" →
      (∀ rw, (Exec i w).runWorld = some rw →
        rw.env i.ReleasesRemoteEnv = some ("frogbot/" ++ d.ReleasesRepo)) ∧
      (∀ temp, i.buildResult = .ok temp → i.setReleasesResult = none →
        (Exec i w).runWorld.isSome = true)) ∧
    (d.ReleasesRepo = "" →
      (∀ ev ∈ (Exec i w).trace, ev.line ≠ 90 ∧ ev.line ≠ 94) ∧
      (i.JfrogHomeDirEnv ≠ i.ReleasesRemoteEnv →
        ∀ ev ∈ (Exec i w).trace, ∀ v, ev.call ≠ .Setenv i.ReleasesRemoteEnv v) ∧
      (∀ p, Deferred.restoreReleasesRemote p ∉ (Exec i w).deferred)) := by
  cases hb : i.buildResult with
  | error x =>
    constructor <;> intro hrel <;>
      simp [Exec, hd, hb, BuildServerConfigFile, leave, unwind, runAll, Frame.call]
  | ok temp =>
    constructor
    · intro hrel
      cases hset : i.setReleasesResult with
      | some x =>
        cases h2 : i.restoreHomeResult <;> cases h3 : i.removeTempDirResult <;>
          simp [Exec, hd, hb, hrel, hset, h2, h3, BuildServerConfigFile,
            withReleasesRemote, leave, unwind, runAll, Deferred.run, Frame.call,
            Frame.defer, osSetenv, osGetenv, RemoveTempDir]
      | none =>
        cases hro : i.runOutcome with
        | panicked v =>
          constructor
          · intro rw hrw
            simp [Exec, hd, hb, hro, hrel, hset, BuildServerConfigFile,
              withReleasesRemote, runCommand, leave, unwind, runAll, Deferred.run, Frame.call,
              Frame.defer, osSetenv, osGetenv, RemoveTempDir] at hrw
            subst hrw
            simp
          · simp [Exec, hd, hb, hro, hrel, hset, BuildServerConfigFile,
              withReleasesRemote, runCommand, leave, unwind, runAll, Deferred.run, Frame.call,
              Frame.defer, osSetenv, osGetenv, RemoveTempDir]
        | returned e =>
          constructor
          · intro rw hrw
            cases e <;> cases hsr : i.shouldReportUsage <;> cases hre : i.reportErrorResult <;>
              simp [Exec, hd, hb, hro, hrel, hset, hsr, hre, BuildServerConfigFile,
                withReleasesRemote, runCommand, leave, unwind, runAll, Deferred.run,
                Frame.call, Frame.defer, osSetenv, osGetenv, RemoveTempDir] at hrw <;>
              subst hrw <;> simp
          · cases e <;> cases hsr : i.shouldReportUsage <;> cases hre : i.reportErrorResult <;>
              simp [Exec, hd, hb, hro, hrel, hset, hsr, hre, BuildServerConfigFile,
                withReleasesRemote, runCommand, leave, unwind, runAll, Deferred.run,
                Frame.call, Frame.defer, osSetenv, osGetenv, RemoveTempDir]
    · intro hrel
      cases hro : i.runOutcome with
      | panicked v =>
        refine ⟨?_, ?_, ?_⟩ <;>
          simp [Exec, hd, hb, hro, hrel, BuildServerConfigFile,
            withReleasesRemote, runCommand, leave, unwind, runAll, Deferred.run, Frame.call,
            Frame.defer]
      | returned e =>
        cases e <;> cases hsr : i.shouldReportUsage <;> cases hre : i.reportErrorResult <;>
          refine ⟨?_, ?_, ?_⟩ <;>
          simp [Exec, hd, hb, hro, hrel, hsr, hre, BuildServerConfigFile,
            withReleasesRemote, runCommand, leave, unwind, runAll, Deferred.run, Frame.call,
            Frame.defer]

/-- C9 at the sample invocation, whose configuration names `releases-X`, and at the same
invocation with no releases repository configured. -/
theorem C9_releases_remote_witness :
    sampleInputs.detailsResult = .ok { ReleasesRepo := "releases-X" } ∧
    (∃ rw, (Exec sampleInputs emptyWorld).runWorld = some rw ∧
      rw.env "JFROG_CLI_RELEASES_REPO" = some "frogbot/releases-X") ∧
    (∀ ev ∈ (Exec { sampleInputs with detailsResult := .ok { ReleasesRepo := "" } }
      emptyWorld).trace, ev.line ≠ 90 ∧ ev.line ≠ 94) :=
  ⟨rfl,
    ⟨_, rfl, (C9_releases_remote_override sampleInputs emptyWorld
      { ReleasesRepo := "releases-X" } rfl).1 (by decide) |>.1 _ rfl⟩,
    ((C9_releases_remote_override { sampleInputs with detailsResult := .ok { ReleasesRepo := "" } }
      emptyWorld { ReleasesRepo := "" } rfl).2 rfl).1⟩

/-- C10 fails on the code: when `command.Run` returns the error `scan timed out` and
`usage.ShouldReportUsage()` is false, `Exec` returns that error and still logs, on line 113,
that the command finished successfully. -/
theorem C10_success_logged_for_failed_command :
    (Exec { timedOutInputs with shouldReportUsage := false } emptyWorld).outcome =
      .returned (some (.join [.join [.leaf "scan timed out"]])) ∧
    (⟨113, .logInfo (.finishedSuccessfully "scan-repository")⟩ : Event) ∈
      (Exec { timedOutInputs with shouldReportUsage := false } emptyWorld).trace := by
  decide

end Frogbot
